import Mathlib

/-!
Verification of the inference-bridge loop in `src/python/helper.py`.

The bridge is a single-threaded loop: it reads one line from standard
input, breaks when the read yields the empty end-of-stream string,
otherwise parses the line as JSON, extracts `source`, `path`, `line`,
`column`, hands them to the external inference engine
(`jedi.Script(...).infer(...)`), builds a five-field result object from
the first candidate (or the JSON null value if there are none),
serializes it, writes it followed by a newline and flushes.  Any
exception raised inside the try body is caught and emitted as
`{error: str(e)}`, again followed by a newline and a flush.

The embedding below models the two external black boxes as parameters:
`json.loads` as a function `JsonLoads` from the raw line to either a
parsed JSON value or an exception message, and the jedi engine as a
function `Engine` from the four extracted field values to either a list
of candidates or an exception message.  Output writes are modelled as
successful in the pure loop `runLoop`; a second loop `runLoopE` with a
fallible emit operation models the case where a write or flush itself
raises.
-/

namespace HoverBridge

/-- JSON values as produced by `json.loads` and consumed by `json.dumps`
in the bridge.  Numbers are restricted to integers, which covers every
value the bridge itself constructs or inspects. -/
inductive Json where
  | null
  | bool (b : Bool)
  | num (n : Int)
  | str (s : String)
  | arr (xs : List Json)
  | obj (fields : List (String × Json))

/-- One symbol candidate as returned by the engine: the five attributes
the bridge reads from `inference[0]` (`name`, `full_name`, `type`,
`docstring()`, `module_name`).  `full_name` and `module_name` may be
Python `None`, hence `Option`. -/
structure Candidate where
  name : String
  full_name : Option String
  type : String
  docstring : String
  module_name : Option String

/-- The `json.loads` black box: either a parsed value or the message of
the raised exception. -/
abbrev JsonLoads := String → Except String Json

/-- The jedi engine black box (`jedi.Script(source, path=path)` followed
by `script.infer(line, column)`): from the four request field values to
either an ordered candidate list or the message of a raised exception. -/
abbrev Engine := Json → Json → Json → Json → Except String (List Candidate)

/-- CPython message of the `TypeError` raised by subscripting a
non-dict value with a string key, as `request[...]` does. -/
def typeErrorMsg : Json → String
  | Json.null => "\x27NoneType\x27 object is not subscriptable"
  | Json.bool _ => "\x27bool\x27 object is not subscriptable"
  | Json.num _ => "\x27int\x27 object is not subscriptable"
  | Json.str _ => "string indices must be integers"
  | Json.arr _ => "list indices must be integers or slices, not str"
  | Json.obj _ => "\x27dict\x27"

/-- Models `request[key]`: on a JSON object, dictionary lookup raising
`KeyError(key)` (whose `str` is the quoted key) when absent; on any
other value, a `TypeError`. -/
def getField (v : Json) (key : String) : Except String Json :=
  match v with
  | Json.obj fields =>
      match fields.lookup key with
      | some x => Except.ok x
      | none => Except.error ("\x27" ++ key ++ "\x27")
  | other => Except.error (typeErrorMsg other)

/-- Converts an optional Python string attribute to its JSON value
(`None` serializes as null). -/
def jsonOfOptStr : Option String → Json
  | some s => Json.str s
  | none => Json.null

/-- Lowercase hexadecimal digit, as used by `json.dumps` escapes. -/
def hexDigit (n : Nat) : Char :=
  if n < 10 then Char.ofNat (48 + n) else Char.ofNat (87 + n)

/-- Four lowercase hexadecimal digits for a `\uXXXX` escape. -/
def hex4 (n : Nat) : String :=
  String.mk [hexDigit (n / 4096 % 16), hexDigit (n / 256 % 16),
    hexDigit (n / 16 % 16), hexDigit (n % 16)]

/-- Escapes one character the way `json.dumps` (with its default
`ensure_ascii=True`) does: the two-character escapes for quote,
backslash and common control characters, `\uXXXX` for other control
characters and for all non-ASCII characters, surrogate pairs above the
basic multilingual plane. -/
def escapeChar (c : Char) : String :=
  if c = Char.ofNat 34 then "\\\""
  else if c = Char.ofNat 92 then "\\\\"
  else if c = Char.ofNat 10 then "\\n"
  else if c = Char.ofNat 13 then "\\r"
  else if c = Char.ofNat 9 then "\\t"
  else if c = Char.ofNat 8 then "\\b"
  else if c = Char.ofNat 12 then "\\f"
  else if c.toNat < 32 ∨ c.toNat > 126 then
    if c.toNat ≤ 65535 then "\\u" ++ hex4 c.toNat
    else
      "\\u" ++ hex4 (55296 + (c.toNat - 65536) / 1024) ++
      "\\u" ++ hex4 (56320 + (c.toNat - 65536) % 1024)
  else String.singleton c

/-- Serializes a string with surrounding quotes, escaping each
character. -/
def dumpString (s : String) : String :=
  "\"" ++ String.join (s.toList.map escapeChar) ++ "\""

mutual

/-- Models `json.dumps` with its default separators. -/
def dumps : Json → String
  | Json.null => "null"
  | Json.bool true => "true"
  | Json.bool false => "false"
  | Json.num n => toString n
  | Json.str s => dumpString s
  | Json.arr xs => "[" ++ dumpsArr xs ++ "]"
  | Json.obj fs => "\x7b" ++ dumpsObj fs ++ "\x7d"

/-- Serializes array elements joined by the default `, ` separator. -/
def dumpsArr : List Json → String
  | [] => ""
  | [x] => dumps x
  | x :: y :: rest => dumps x ++ ", " ++ dumpsArr (y :: rest)

/-- Serializes object entries joined by `, `, each key and value
separated by `: `. -/
def dumpsObj : List (String × Json) → String
  | [] => ""
  | [(k, v)] => dumpString k ++ ": " ++ dumps v
  | (k, v) :: p :: rest => dumpString k ++ ": " ++ dumps v ++ ", " ++ dumpsObj (p :: rest)

end

/-- Processing of one parsed request: extract the four fields in source
order, invoke the engine, then build the result value — the five-field
object from the first candidate when the list is non-empty (the `if
inference:` branch), otherwise `None`.  An error anywhere short-circuits
with the exception message, mirroring Python exception propagation up to
the iteration boundary. -/
def processRequest (engine : Engine) (request : Json) : Except String Json := do
  let source ← getField request "source"
  let path ← getField request "path"
  let line ← getField request "line"
  let column ← getField request "column"
  let inference ← engine source path line column
  match inference with
  | c :: _ =>
      pure (Json.obj [("name", Json.str c.name),
        ("full_name", jsonOfOptStr c.full_name),
        ("type", Json.str c.type),
        ("docstring", Json.str c.docstring),
        ("module_name", jsonOfOptStr c.module_name)])
  | [] => pure Json.null

/-- The fallible part of the try body for one input line: JSON parse
followed by request processing. -/
def tryBodyResult (jl : JsonLoads) (engine : Engine) (input : String) : Except String Json :=
  (jl input).bind (processRequest engine)

/-- The JSON value the bridge serializes for one input line: the result
of the try body, or — when the try body raised — the `except` handler's
single-field error object built from `str(e)`. -/
def processLine (jl : JsonLoads) (engine : Engine) (input : String) : Json :=
  match tryBodyResult jl engine input with
  | Except.ok v => v
  | Except.error e => Json.obj [("error", Json.str e)]

/-- The full output line for one input line: the serialized result plus
the trailing newline of `json.dumps(result) + chr(10)`. -/
def outputLine (jl : JsonLoads) (engine : Engine) (input : String) : String :=
  dumps (processLine jl engine input) ++ "\n"

/-- The main loop over a finite list of reads from standard input,
writes modelled as always succeeding.  Python `readline` yields the
empty string only at end of stream, so the list models the reads in
order; an exhausted list behaves like an explicit empty read.  `if not
line: break` is the `l = ""` test; each surviving line contributes
exactly one output line, written and flushed before the next read. -/
def runLoop (jl : JsonLoads) (engine : Engine) : List String → List String
  | [] => []
  | l :: ls => if l = "" then [] else outputLine jl engine l :: runLoop jl engine ls

/-- The main loop over an infinite stream of reads, with explicit fuel:
`none` means the loop is still running after `fuel` iterations, `some
out` means it has terminated normally (fell off the `while`, a success
exit) having written the lines `out`. -/
def runLoopStream (jl : JsonLoads) (engine : Engine) (reads : Nat → String) : Nat → Option (List String)
  | 0 => none
  | fuel + 1 =>
      if reads 0 = "" then some []
      else (runLoopStream jl engine (fun n => reads (n + 1)) fuel).map
        (fun out => outputLine jl engine (reads 0) :: out)

/-- One iteration with a fallible emit operation (modelling
`sys.stdout.write` followed by `sys.stdout.flush`, either of which may
raise): the try body computes the result and emits its line; on any
exception `e` in the try body, the handler emits the error line — and an
exception raised by that emit is NOT caught, so it propagates. -/
def stepE (emit : String → Except String Unit) (jl : JsonLoads) (engine : Engine)
    (input : String) : Except String String :=
  match (do
      let result ← tryBodyResult jl engine input
      let out := dumps result ++ "\n"
      emit out
      pure out : Except String String) with
  | Except.ok out => Except.ok out
  | Except.error e =>
      let out := dumps (Json.obj [("error", Json.str e)]) ++ "\n"
      match emit out with
      | Except.ok _ => Except.ok out
      | Except.error propagated => Except.error propagated

/-- The loop with fallible writes: a propagated exception terminates the
whole loop abnormally (`Except.error`), normal termination returns the
emitted lines. -/
def runLoopE (emit : String → Except String Unit) (jl : JsonLoads) (engine : Engine) :
    List String → Except String (List String)
  | [] => Except.ok []
  | l :: ls =>
      if l = "" then Except.ok []
      else
        match stepE emit jl engine l with
        | Except.ok out => (runLoopE emit jl engine ls).map (fun rest => out :: rest)
        | Except.error e => Except.error e

/-- Concrete parse-failure message of `json.loads` on input that is not
valid JSON, used to instantiate the black box in witnesses. -/
def jlErrMsg : String := "Expecting value: line 1 column 1 (char 0)"

/-- A concrete `json.loads` instance that rejects every line. -/
def jlNone : JsonLoads := fun _ => Except.error jlErrMsg

/-- A concrete `json.loads` instance returning a fixed parsed value. -/
def jlConst (v : Json) : JsonLoads := fun _ => Except.ok v

/-- A concrete engine returning no candidates. -/
def engEmpty : Engine := fun _ _ _ _ => Except.ok []

/-- A concrete engine returning a fixed candidate list. -/
def engConst (cs : List Candidate) : Engine := fun _ _ _ _ => Except.ok cs

/-- A concrete request object holding all four required fields. -/
def reqFull : Json :=
  Json.obj [("source", Json.str "import os"), ("path", Json.str "a.py"),
    ("line", Json.num 1), ("column", Json.num 7)]

/-- A concrete first candidate. -/
def candOs : Candidate :=
  { name := "os", full_name := some "os", type := "module",
    docstring := "OS routines", module_name := some "os" }

/-- A concrete second candidate, distinct from the first in every
field. -/
def candOther : Candidate :=
  { name := "other", full_name := none, type := "function",
    docstring := "other doc", module_name := none }

/-- C1.  A line whose per-request processing (parse, field extraction,
engine invocation or result construction) raises `e` yields exactly the
error line for `e`, the loop is not terminated, and the rest of the run
is literally `runLoop` of the remaining lines — no state escapes the
failing iteration. -/
theorem c1_failure_isolated (jl : JsonLoads) (engine : Engine) (l : String)
    (ls : List String) (e : String) (hne : l ≠ "")
    (hfail : tryBodyResult jl engine l = Except.error e) :
    runLoop jl engine (l :: ls) =
      (dumps (Json.obj [("error", Json.str e)]) ++ "\n") :: runLoop jl engine ls := by
  simp [runLoop, hne, outputLine, processLine, hfail]

/-- C1 witness at a concrete failing line. -/
theorem c1_failure_isolated_witness :
    runLoop jlNone engEmpty ["not json", "x"] =
      (dumps (Json.obj [("error", Json.str jlErrMsg)]) ++ "\n") ::
        runLoop jlNone engEmpty ["x"] :=
  c1_failure_isolated jlNone engEmpty "not json" ["x"] jlErrMsg (by decide) rfl

/-- C3.  When the line parses, the four fields extract, and the engine
returns a non-empty candidate list `c :: rest`, the emitted value is the
object with exactly the five fields `name`, `full_name`, `type`,
`docstring`, `module_name`, every one taken from the first candidate
`c`; the conclusion does not depend on `rest`, so later candidates are
never consulted. -/
theorem c3_first_candidate (jl : JsonLoads) (engine : Engine) (input : String)
    (req s p li co : Json) (c : Candidate) (rest : List Candidate)
    (hjl : jl input = Except.ok req)
    (hs : getField req "source" = Except.ok s)
    (hp : getField req "path" = Except.ok p)
    (hl : getField req "line" = Except.ok li)
    (hc : getField req "column" = Except.ok co)
    (heng : engine s p li co = Except.ok (c :: rest)) :
    processLine jl engine input =
      Json.obj [("name", Json.str c.name),
        ("full_name", jsonOfOptStr c.full_name),
        ("type", Json.str c.type),
        ("docstring", Json.str c.docstring),
        ("module_name", jsonOfOptStr c.module_name)] := by
  simp [processLine, tryBodyResult, processRequest, Bind.bind, Except.bind, Pure.pure, Except.pure,
    hjl, hs, hp, hl, hc, heng]

/-- C3 witness: an engine returning two candidates; the response is
built from the first only. -/
theorem c3_first_candidate_witness :
    processLine (jlConst reqFull) (engConst [candOs, candOther]) "line" =
      Json.obj [("name", Json.str candOs.name),
        ("full_name", jsonOfOptStr candOs.full_name),
        ("type", Json.str candOs.type),
        ("docstring", Json.str candOs.docstring),
        ("module_name", jsonOfOptStr candOs.module_name)] :=
  c3_first_candidate (jlConst reqFull) (engConst [candOs, candOther]) "line"
    reqFull (Json.str "import os") (Json.str "a.py") (Json.num 1) (Json.num 7)
    candOs [candOther] rfl rfl rfl rfl rfl rfl

/-- C4.  When the engine returns zero candidates, the emitted value is
the JSON null (not an empty object) and the output line is exactly the
four characters of `null` plus the newline — the line is written, not
omitted. -/
theorem c4_no_candidates_null (jl : JsonLoads) (engine : Engine) (input : String)
    (req s p li co : Json)
    (hjl : jl input = Except.ok req)
    (hs : getField req "source" = Except.ok s)
    (hp : getField req "path" = Except.ok p)
    (hl : getField req "line" = Except.ok li)
    (hc : getField req "column" = Except.ok co)
    (heng : engine s p li co = Except.ok []) :
    processLine jl engine input = Json.null ∧
      outputLine jl engine input = "null" ++ "\n" := by
  have hres : processLine jl engine input = Json.null := by
    simp [processLine, tryBodyResult, processRequest, Bind.bind, Except.bind, Pure.pure, Except.pure,
      hjl, hs, hp, hl, hc, heng]
  exact ⟨hres, by simp [outputLine, hres, dumps]⟩

/-- C4 witness at a concrete request and the empty-result engine. -/
theorem c4_no_candidates_null_witness :
    processLine (jlConst reqFull) engEmpty "line" = Json.null ∧
      outputLine (jlConst reqFull) engEmpty "line" = "null" ++ "\n" :=
  c4_no_candidates_null (jlConst reqFull) engEmpty "line"
    reqFull (Json.str "import os") (Json.str "a.py") (Json.num 1) (Json.num 7)
    rfl rfl rfl rfl rfl rfl

/-- Extracting from an object that is missing one of the four required
fields fails with the `KeyError` of the first missing key in source
extraction order, before the engine is ever invoked. -/
theorem processRequest_missing_field (engine : Engine) (fs : List (String × Json))
    (hmiss : (fs.lookup "source").isNone ∨ (fs.lookup "path").isNone ∨
      (fs.lookup "line").isNone ∨ (fs.lookup "column").isNone) :
    ∃ k, k ∈ ["source", "path", "line", "column"] ∧
      processRequest engine (Json.obj fs) = Except.error ("\x27" ++ k ++ "\x27") := by
  cases hsrc : fs.lookup "source" with
  | none =>
      exact ⟨"source", by simp, by
        simp [processRequest, getField, hsrc, Bind.bind, Except.bind]⟩
  | some s =>
    cases hpath : fs.lookup "path" with
    | none =>
        exact ⟨"path", by simp, by
          simp [processRequest, getField, hsrc, hpath, Bind.bind, Except.bind]⟩
    | some p =>
      cases hline : fs.lookup "line" with
      | none =>
          exact ⟨"line", by simp, by
            simp [processRequest, getField, hsrc, hpath, hline, Bind.bind, Except.bind]⟩
      | some li =>
        cases hcol : fs.lookup "column" with
        | none =>
            exact ⟨"column", by simp, by
              simp [processRequest, getField, hsrc, hpath, hline, hcol,
                Bind.bind, Except.bind]⟩
        | some co => simp [hsrc, hpath, hline, hcol] at hmiss

/-- C2.  A malformed line — invalid JSON (with the parser's non-empty
message, as `json` guarantees) or a parsed object missing a required
field — produces exactly one response line, an object with the single
field `error` holding a non-empty message, and the loop continues with
the remaining lines untouched. -/
theorem c2_malformed_error_object (jl : JsonLoads) (engine : Engine) (l : String)
    (ls : List String) (hne : l ≠ "")
    (hmal : (∃ e, jl l = Except.error e ∧ e ≠ "") ∨
      (∃ fs, jl l = Except.ok (Json.obj fs) ∧
        ((fs.lookup "source").isNone ∨ (fs.lookup "path").isNone ∨
         (fs.lookup "line").isNone ∨ (fs.lookup "column").isNone))) :
    ∃ e, e ≠ "" ∧
      runLoop jl engine (l :: ls) =
        (dumps (Json.obj [("error", Json.str e)]) ++ "\n") :: runLoop jl engine ls := by
  rcases hmal with ⟨e, hjl, hee⟩ | ⟨fs, hjl, hmiss⟩
  · refine ⟨e, hee, ?_⟩
    simp [runLoop, hne, outputLine, processLine, tryBodyResult, hjl, Except.bind]
  · obtain ⟨k, _, herr⟩ := processRequest_missing_field engine fs hmiss
    refine ⟨"\x27" ++ k ++ "\x27", ?_, ?_⟩
    · intro h
      have hlen := congrArg String.length h
      simp [String.length_append] at hlen
      exact absurd hlen.2 (by decide)
    · simp [runLoop, hne, outputLine, processLine, tryBodyResult, hjl,
        Except.bind, herr]

/-- C2 witness at a concrete invalid-JSON line. -/
theorem c2_malformed_error_object_witness :
    ∃ e, e ≠ "" ∧
      runLoop jlNone engEmpty ["bad", "ok"] =
        (dumps (Json.obj [("error", Json.str e)]) ++ "\n") ::
          runLoop jlNone engEmpty ["ok"] :=
  c2_malformed_error_object jlNone engEmpty "bad" ["ok"] (by decide)
    (Or.inl ⟨jlErrMsg, rfl, by decide⟩)

/-- With no empty read among the lines, the run is exactly the
per-line map. -/
theorem runLoop_eq_map (jl : JsonLoads) (engine : Engine) :
    ∀ ls : List String, "" ∉ ls → runLoop jl engine ls = ls.map (outputLine jl engine)
  | [], _ => rfl
  | l :: ls, h => by
      have hl : l ≠ "" := by rintro rfl; exact h (List.mem_cons_self _ _)
      have ht : "" ∉ ls := fun hm => h (List.mem_cons_of_mem _ hm)
      simp [runLoop, hl, runLoop_eq_map jl engine ls ht]

/-- C5.  For any input sequence before stream closure, the run produces
exactly the per-line responses in input order — one output line per
input line, none dropped, none reordered — so the lengths agree. -/
theorem c5_one_response_per_line (jl : JsonLoads) (engine : Engine)
    (ls : List String) (h : "" ∉ ls) :
    runLoop jl engine ls = ls.map (outputLine jl engine) ∧
      (runLoop jl engine ls).length = ls.length := by
  have hmap := runLoop_eq_map jl engine ls h
  exact ⟨hmap, by simp [hmap]⟩

/-- C5 witness at a concrete two-line input. -/
theorem c5_one_response_per_line_witness :
    runLoop jlNone engEmpty ["a", "b"] =
        (["a", "b"] : List String).map (outputLine jlNone engEmpty) ∧
      (runLoop jlNone engEmpty ["a", "b"]).length =
        (["a", "b"] : List String).length :=
  c5_one_response_per_line jlNone engEmpty ["a", "b"] (by decide)

/-- C7.  The whole run is a pure per-line map over the prefix of reads
before the first empty one: no accumulator, file handle or any other
state is threaded from one iteration to the next — the model's only
effect channel is the returned list of output lines. -/
theorem c7_no_state_across_iterations (jl : JsonLoads) (engine : Engine)
    (ls : List String) :
    runLoop jl engine ls =
      (ls.takeWhile (fun l => l ≠ "")).map (outputLine jl engine) := by
  induction ls with
  | nil => rfl
  | cons l ls ih =>
      by_cases hl : l = ""
      · subst hl; simp [runLoop, List.takeWhile]
      · simp [runLoop, List.takeWhile, hl, ih]

/-- C8.  A line holding just the newline character is non-empty, so the
`if not line: break` test does not fire: given that the parser rejects
it with message `e`, the bridge emits the error line for `e` and
continues with the remaining lines. -/
theorem c8_blank_line_continues (jl : JsonLoads) (engine : Engine)
    (ls : List String) (e : String)
    (hparse : jl "\n" = Except.error e) :
    runLoop jl engine ("\n" :: ls) =
      (dumps (Json.obj [("error", Json.str e)]) ++ "\n") :: runLoop jl engine ls := by
  have hne : ("\n" : String) ≠ "" := by decide
  simp [runLoop, hne, outputLine, processLine, tryBodyResult, hparse, Except.bind]

/-- C8 witness with the concrete always-rejecting parser. -/
theorem c8_blank_line_continues_witness :
    runLoop jlNone engEmpty ["\n", "x"] =
      (dumps (Json.obj [("error", Json.str jlErrMsg)]) ++ "\n") ::
        runLoop jlNone engEmpty ["x"] :=
  c8_blank_line_continues jlNone engEmpty ["x"] jlErrMsg rfl

/-- C9.  When the try body fails with `e` and emitting the error line
inside the `except` handler itself fails with `propagated`, nothing
catches the second exception: the whole loop returns that error and the
remaining lines are never processed — abnormal termination. -/
theorem c9_handler_emit_propagates (emit : String → Except String Unit)
    (jl : JsonLoads) (engine : Engine) (l : String) (ls : List String)
    (e e2 : String) (hne : l ≠ "")
    (hfail : tryBodyResult jl engine l = Except.error e)
    (hemit : emit (dumps (Json.obj [("error", Json.str e)]) ++ "\n") =
      Except.error e2) :
    runLoopE emit jl engine (l :: ls) = Except.error e2 := by
  simp [runLoopE, hne, stepE, Bind.bind, Except.bind, hfail, hemit]

/-- A concrete emit operation that always fails, modelling a closed
standard output. -/
def emitFail : String → Except String Unit := fun _ => Except.error "Broken pipe"

/-- C9 witness: failing parse plus failing handler write terminates the
whole run abnormally. -/
theorem c9_handler_emit_propagates_witness :
    runLoopE emitFail jlNone engEmpty ["bad", "y"] = Except.error "Broken pipe" :=
  c9_handler_emit_propagates emitFail jlNone engEmpty "bad" ["y"]
    jlErrMsg "Broken pipe" (by decide) rfl rfl

/-- The response at the position of a given line depends only on that
line, whatever non-empty lines precede it and whatever follows. -/
theorem runLoop_getElem_at (jl : JsonLoads) (engine : Engine) :
    ∀ (pre : List String) (l : String) (ls : List String), "" ∉ pre → l ≠ "" →
      (runLoop jl engine (pre ++ l :: ls))[pre.length]? =
        some (outputLine jl engine l)
  | [], l, ls, _, hl => by simp [runLoop, hl]
  | p :: pre, l, ls, hpre, hl => by
      have hp : p ≠ "" := by rintro rfl; exact hpre (List.mem_cons_self _ _)
      have ht : "" ∉ pre := fun hm => hpre (List.mem_cons_of_mem _ hm)
      simp [runLoop, hp, runLoop_getElem_at jl engine pre l ls ht hl]

/-- C10.  History-freeness: with the engine fixed, the response line for
a line `l` is `outputLine` of `l` alone; two runs fed `l` at any
positions (after any non-empty prefixes, with any suffixes) produce the
same response line at the corresponding position. -/
theorem c10_history_free (jl : JsonLoads) (engine : Engine)
    (pre1 pre2 ls1 ls2 : List String) (l : String)
    (h1 : "" ∉ pre1) (h2 : "" ∉ pre2) (hl : l ≠ "") :
    (runLoop jl engine (pre1 ++ l :: ls1))[pre1.length]? =
        some (outputLine jl engine l) ∧
      (runLoop jl engine (pre2 ++ l :: ls2))[pre2.length]? =
        some (outputLine jl engine l) ∧
      (runLoop jl engine (pre1 ++ l :: ls1))[pre1.length]? =
        (runLoop jl engine (pre2 ++ l :: ls2))[pre2.length]? := by
  have ha := runLoop_getElem_at jl engine pre1 l ls1 h1 hl
  have hb := runLoop_getElem_at jl engine pre2 l ls2 h2 hl
  exact ⟨ha, hb, ha.trans hb.symm⟩

/-- C10 witness: the same line after different prefixes gets the same
response. -/
theorem c10_history_free_witness :
    (runLoop jlNone engEmpty (["a"] ++ "q" :: ["z"]))[(["a"] : List String).length]? =
        some (outputLine jlNone engEmpty "q") ∧
      (runLoop jlNone engEmpty (([] : List String) ++ "q" :: []))[([] : List String).length]? =
        some (outputLine jlNone engEmpty "q") ∧
      (runLoop jlNone engEmpty (["a"] ++ "q" :: ["z"]))[(["a"] : List String).length]? =
        (runLoop jlNone engEmpty (([] : List String) ++ "q" :: []))[([] : List String).length]? :=
  c10_history_free jlNone engEmpty ["a"] [] ["z"] [] "q" (by decide) (by decide)
    (by decide)

/-- If some read yields the end-of-stream marker, enough fuel makes the
loop terminate normally. -/
theorem runLoopStream_terminates_of_eos (jl : JsonLoads) (engine : Engine) :
    ∀ (n : Nat) (reads : Nat → String), reads n = "" →
      ∃ fuel out, runLoopStream jl engine reads fuel = some out
  | 0, reads, h => ⟨1, [], by simp [runLoopStream, h]⟩
  | n + 1, reads, h => by
      by_cases h0 : reads 0 = ""
      · exact ⟨1, [], by simp [runLoopStream, h0]⟩
      · obtain ⟨fuel, out, hout⟩ :=
          runLoopStream_terminates_of_eos jl engine n (fun m => reads (m + 1)) h
        exact ⟨fuel + 1, outputLine jl engine (reads 0) :: out, by
          simp [runLoopStream, h0, hout]⟩

/-- If the loop terminates, some read yielded the end-of-stream
marker. -/
theorem runLoopStream_eos_of_terminates (jl : JsonLoads) (engine : Engine) :
    ∀ (fuel : Nat) (reads : Nat → String) (out : List String),
      runLoopStream jl engine reads fuel = some out → ∃ n, reads n = ""
  | 0, reads, out, h => by simp [runLoopStream] at h
  | fuel + 1, reads, out, h => by
      by_cases h0 : reads 0 = ""
      · exact ⟨0, h0⟩
      · simp only [runLoopStream, h0, if_false, Option.map_eq_some'] at h
        obtain ⟨out2, hout, _⟩ := h
        obtain ⟨n, hn⟩ :=
          runLoopStream_eos_of_terminates jl engine fuel (fun m => reads (m + 1)) out2 hout
        exact ⟨n + 1, hn⟩

/-- Unfolding equation for one iteration of the stream loop. -/
theorem runLoopStream_succ (jl : JsonLoads) (engine : Engine)
    (reads : Nat → String) (fuel : Nat) :
    runLoopStream jl engine reads (fuel + 1) =
      if reads 0 = "" then some []
      else (runLoopStream jl engine (fun n => reads (n + 1)) fuel).map
        (fun out => outputLine jl engine (reads 0) :: out) := rfl

/-- When the first empty read is the `n`-th one, the loop stops right
there having written exactly one response per preceding read, in order,
and nothing for the empty read itself. -/
theorem runLoopStream_output_before_eos (jl : JsonLoads) (engine : Engine) :
    ∀ (n : Nat) (reads : Nat → String), (∀ m, m < n → reads m ≠ "") → reads n = "" →
      runLoopStream jl engine reads (n + 1) =
        some ((List.range n).map (fun m => outputLine jl engine (reads m)))
  | 0, reads, _, h => by simp [runLoopStream, h]
  | n + 1, reads, hbefore, h => by
      have h0 : reads 0 ≠ "" := hbefore 0 (Nat.succ_pos n)
      have ih := runLoopStream_output_before_eos jl engine n (fun m => reads (m + 1))
        (fun m hm => hbefore (m + 1) (Nat.succ_lt_succ hm)) h
      rw [runLoopStream_succ, if_neg h0, ih]
      simp [List.range_succ_eq_map, List.map_map, Function.comp]

/-- C6.  Over an infinite stream of reads, the loop terminates normally
(with success, `some`) exactly when some read yields the empty
end-of-stream marker; and when the first such read is the `n`-th, the
output is precisely the `n` responses to the earlier reads — no output
line is written for the empty read. -/
theorem c6_terminates_iff_eos (jl : JsonLoads) (engine : Engine)
    (reads : Nat → String) :
    ((∃ fuel out, runLoopStream jl engine reads fuel = some out) ↔
      (∃ n, reads n = "")) ∧
    (∀ n, (∀ m, m < n → reads m ≠ "") → reads n = "" →
      runLoopStream jl engine reads (n + 1) =
        some ((List.range n).map (fun m => outputLine jl engine (reads m)))) := by
  refine ⟨⟨?_, ?_⟩, fun n => runLoopStream_output_before_eos jl engine n reads⟩
  · rintro ⟨fuel, out, h⟩
    exact runLoopStream_eos_of_terminates jl engine fuel reads out h
  · rintro ⟨n, h⟩
    exact runLoopStream_terminates_of_eos jl engine n reads h

/-- A concrete stream: one non-empty read, then end of stream. -/
def readsOne : Nat → String := fun n => if n = 0 then "x" else ""

/-- C6 witness: on `readsOne` the loop terminates after writing exactly
the one response to the non-empty read. -/
theorem c6_terminates_iff_eos_witness :
    runLoopStream jlNone engEmpty readsOne 2 =
      some [outputLine jlNone engEmpty "x"] := by
  have h := (c6_terminates_iff_eos jlNone engEmpty readsOne).2 1
    (by intro m hm; interval_cases m; decide) rfl
  simpa [readsOne] using h

end HoverBridge
